import Mathlib

/-!
Shallow embedding of the routing and sink logic of the
giantswarm kubernetes-event-exporter repository, together with proofs
of the behavioural properties of its specification.

Conventions of the embedding:
* Go maps (`map[string]V`) are modelled as association lists with
  lookup / insert / delete operations whose observable behaviour matches
  the Go map operations.
* External effects (template evaluation, Slack API calls, the Kubernetes
  API) are modelled as explicit inputs: an oracle function for template
  evaluation, and environment records carrying the responses the external
  system would return.  The embedded functions return the list of calls
  they perform, their Go return value, and the updated state.
* Fallible Go functions returning `error` are modelled with `Except`.
-/

namespace EventExporter

/-! ### Association-list model of Go string-keyed maps -/

/-- Lookup in a Go map: `v, ok := m[k]`. -/
def mlookup {α : Type} : List (String × α) → String → Option α
  | [], _ => none
  | (k, v) :: rest, key => if k = key then some v else mlookup rest key

/-- Deletion from a Go map: `delete(m, k)` removes the binding for `k`. -/
def mdelete {α : Type} (m : List (String × α)) (key : String) : List (String × α) :=
  m.filter (fun p => p.1 ≠ key)

/-- Insertion into a Go map: `m[k] = v` replaces any previous binding. -/
def minsert {α : Type} (m : List (String × α)) (key : String) (v : α) : List (String × α) :=
  (key, v) :: mdelete m key

theorem mlookup_minsert_self {α : Type} (m : List (String × α)) (key : String) (v : α) :
    mlookup (minsert m key v) key = some v := by
  simp [minsert, mlookup]

theorem mlookup_mdelete_self {α : Type} (m : List (String × α)) (key : String) :
    mlookup (mdelete m key) key = none := by
  induction m with
  | nil => simp [mdelete, mlookup]
  | cons p rest ih =>
    by_cases h : p.1 = key
    · simpa [mdelete, h] using ih
    · simpa [mdelete, mlookup, h] using ih

theorem mdelete_eq_self_of_not_mem {α : Type} (m : List (String × α)) (key : String)
    (h : mlookup m key = none) : mdelete m key = m := by
  induction m with
  | nil => simp [mdelete]
  | cons p rest ih =>
    by_cases hp : p.1 = key
    · simp [mlookup, hp] at h
    · simp [mlookup, hp] at h
      simpa [mdelete, hp] using ih h

theorem mdelete_minsert_self {α : Type} (m : List (String × α)) (key : String) (v : α)
    (h : mlookup m key = none) : mdelete (minsert m key v) key = m := by
  have step : mdelete (minsert m key v) key = mdelete (mdelete m key) key := by
    simp [minsert, mdelete]
  rw [step, mdelete_eq_self_of_not_mem _ key (mlookup_mdelete_self m key),
    mdelete_eq_self_of_not_mem m key h]

/-! ### Events, rules, routes (pkg/exporter) -/

/-- Normalized event record; only the fields the routing layer reads for
logging are kept, the routing decisions treat the event as opaque. -/
structure EnhancedEvent where
  uid : String := ""
  nspace : String := ""
  reason : String := ""
  message : String := ""
deriving DecidableEq, Repr

/-- Modelled from the spec: the file defining `Rule` (rules.go) is not
part of the provided sources; the spec describes a Rule as a pure
predicate over an Event plus an optional receiver name.  Its
`MatchesEvent` method is therefore kept abstract as a Boolean-valued
function of the event. -/
structure Rule where
  matchesEvent : EnhancedEvent → Bool
  receiver : String := ""

/-- `Route` from pkg/exporter/router.go: ordered Drop rules, ordered
Match rules, ordered child Routes. -/
inductive Route where
  | mk : List Rule → List Rule → List Route → Route

def Route.Drop : Route → List Rule
  | .mk d _ _ => d

def Route.Match : Route → List Rule
  | .mk _ m _ => m

def Route.Routes : Route → List Route
  | .mk _ _ rs => rs

/-- The Match-rule loop of `Route.ProcessEvent` (router.go lines 39-56):
returns the `registry.SendEvent` calls it performs, in order, paired
with the final value of `matchesAll`. -/
def processMatch (rules : List Rule) (ev : EnhancedEvent) :
    List (String × EnhancedEvent) × Bool :=
  match rules with
  | [] => ([], true)
  | rule :: rest =>
    let tailRes := processMatch rest ev
    if rule.matchesEvent ev then
      (if rule.receiver ≠ "" then (rule.receiver, ev) :: tailRes.1 else tailRes.1, tailRes.2)
    else
      (tailRes.1, false)

mutual

/-- `Route.ProcessEvent` (router.go lines 30-64), returning the sequence
of `registry.SendEvent(name, ev)` calls performed, in order. -/
def Route.processEvent : Route → EnhancedEvent → List (String × EnhancedEvent)
  | .mk dropRules matchRules childRoutes, ev =>
    if dropRules.any (fun v => v.matchesEvent ev) then []
    else
      let mr := processMatch matchRules ev
      mr.1 ++ (if mr.2 then Route.processRoutes childRoutes ev else [])

/-- The recursion over `r.Routes` at the end of `Route.ProcessEvent`. -/
def Route.processRoutes : List Route → EnhancedEvent → List (String × EnhancedEvent)
  | [], _ => []
  | r :: rest, ev => Route.processEvent r ev ++ Route.processRoutes rest ev

end

theorem processRoutes_eq_join (rs : List Route) (ev : EnhancedEvent) :
    Route.processRoutes rs ev = (rs.map (fun c => Route.processEvent c ev)).flatten := by
  induction rs with
  | nil => simp [Route.processRoutes]
  | cons r rest ih => simp [Route.processRoutes, ih]

theorem processMatch_fst (rules : List Rule) (ev : EnhancedEvent) :
    (processMatch rules ev).1 =
      rules.filterMap (fun rule =>
        if rule.matchesEvent ev ∧ rule.receiver ≠ "" then some (rule.receiver, ev) else none) := by
  induction rules with
  | nil => simp [processMatch]
  | cons rule rest ih =>
    by_cases hm : rule.matchesEvent ev
    · by_cases hr : rule.receiver = ""
      · simp [processMatch, hm, hr, ih]
      · simp [processMatch, hm, hr, ih]
    · simp [processMatch, hm, ih]

theorem processMatch_snd (rules : List Rule) (ev : EnhancedEvent) :
    (processMatch rules ev).2 = rules.all ((fun rule => rule.matchesEvent ev)) := by
  induction rules with
  | nil => simp [processMatch]
  | cons rule rest ih =>
    by_cases hm : rule.matchesEvent ev
    · by_cases hr : rule.receiver = "" <;> simp [processMatch, hm, hr, ih]
    · simp [processMatch, hm, ih]

/-- C1: if any Drop rule of a Route matches the event, `ProcessEvent`
performs zero `SendEvent` calls, whatever the Match rules and child
Routes are. -/
theorem route_drop_discards (r : Route) (ev : EnhancedEvent)
    (h : ∃ d ∈ r.Drop, d.matchesEvent ev = true) :
    Route.processEvent r ev = [] := by
  obtain ⟨dropRules, matchRules, childRoutes⟩ := r
  have hany : dropRules.any (fun v => v.matchesEvent ev) = true := by
    simpa [Route.Drop, List.any_eq_true] using h
  simp [Route.processEvent, hany]

/-- C1 witness: a concrete route whose Drop rule matches everything and
whose Match rule names a receiver delivers nothing. -/
theorem route_drop_discards_witness :
    Route.processEvent
      (Route.mk [{ matchesEvent := fun _ => true }]
        [{ matchesEvent := fun _ => true, receiver := "r1" }]
        [Route.mk [] [{ matchesEvent := fun _ => true, receiver := "r2" }] []]) {} = [] :=
  route_drop_discards _ {} ⟨{ matchesEvent := fun _ => true }, by simp [Route.Drop], rfl⟩

theorem processEvent_eq_of_no_drop (r : Route) (ev : EnhancedEvent)
    (hdrop : ∀ d ∈ r.Drop, d.matchesEvent ev = false) :
    Route.processEvent r ev =
      r.Match.filterMap (fun rule =>
        if rule.matchesEvent ev ∧ rule.receiver ≠ "" then some (rule.receiver, ev) else none)
      ++ (if r.Match.all (fun rule => rule.matchesEvent ev)
            then Route.processRoutes r.Routes ev else []) := by
  obtain ⟨dropRules, matchRules, childRoutes⟩ := r
  have hany : dropRules.any (fun v => v.matchesEvent ev) = false := by
    simp only [List.any_eq_false]
    intro d hd
    simpa using hdrop d (by simpa [Route.Drop] using hd)
  simp [Route.processEvent, hany, Route.Match, Route.Routes,
    processMatch_fst, processMatch_snd]

/-- C2: with no Drop rule matching, each Match rule that matches and
names a non-empty receiver contributes exactly one `SendEvent` call with
that receiver, in rule order; each contribution depends only on its own
rule, so a matching rule still delivers when a later rule fails to
match, and duplicate receiver names yield duplicate calls.  The calls of
the Match phase precede whatever the child Routes produce. -/
theorem route_match_sends (r : Route) (ev : EnhancedEvent)
    (hdrop : ∀ d ∈ r.Drop, d.matchesEvent ev = false) :
    Route.processEvent r ev =
      r.Match.filterMap (fun rule =>
        if rule.matchesEvent ev ∧ rule.receiver ≠ "" then some (rule.receiver, ev) else none)
      ++ (if r.Match.all (fun rule => rule.matchesEvent ev)
            then Route.processRoutes r.Routes ev else []) :=
  processEvent_eq_of_no_drop r ev hdrop

/-- C2 witness: two Match rules naming the same receiver and a middle
rule that fails to match: the matching rules both deliver, in order. -/
theorem route_match_sends_witness :
    Route.processEvent
      (Route.mk []
        [{ matchesEvent := fun _ => true, receiver := "r1" },
         { matchesEvent := fun _ => false, receiver := "r2" },
         { matchesEvent := fun _ => true, receiver := "r1" }]
        [Route.mk [] [{ matchesEvent := fun _ => true, receiver := "r3" }] []]) {}
      = [("r1", {}), ("r1", {})] := by
  have h := route_match_sends
    (Route.mk []
      [{ matchesEvent := fun _ => true, receiver := "r1" },
       { matchesEvent := fun _ => false, receiver := "r2" },
       { matchesEvent := fun _ => true, receiver := "r1" }]
      [Route.mk [] [{ matchesEvent := fun _ => true, receiver := "r3" }] []]) {}
    (by intro d hd; simp [Route.Drop] at hd)
  simpa [Route.Match, Route.Routes] using h

/-- C7: a Route whose Match list is empty (and none of whose Drop rules
matches) recurses into every child Route with the same event. -/
theorem route_empty_match_recurses (r : Route) (ev : EnhancedEvent)
    (hmatch : r.Match = [])
    (hdrop : ∀ d ∈ r.Drop, d.matchesEvent ev = false) :
    Route.processEvent r ev = (r.Routes.map (fun c => Route.processEvent c ev)).flatten := by
  have h := processEvent_eq_of_no_drop r ev hdrop
  rw [h, hmatch]
  simp [processRoutes_eq_join]

/-- C7 witness: a route with an empty Match list and two children
forwards to the receivers of both children. -/
theorem route_empty_match_recurses_witness :
    Route.processEvent
      (Route.mk [{ matchesEvent := fun _ => false }] []
        [Route.mk [] [{ matchesEvent := fun _ => true, receiver := "a" }] [],
         Route.mk [] [{ matchesEvent := fun _ => true, receiver := "b" }] []]) {}
      = [("a", {}), ("b", {})] := by
  have h := route_empty_match_recurses
    (Route.mk [{ matchesEvent := fun _ => false }] []
      [Route.mk [] [{ matchesEvent := fun _ => true, receiver := "a" }] [],
       Route.mk [] [{ matchesEvent := fun _ => true, receiver := "b" }] []]) {}
    (by simp [Route.Match])
    (by intro d hd; simp [Route.Drop] at hd; subst hd; rfl)
  rw [h]
  simp [Route.Routes, Route.processEvent, processMatch, Route.processRoutes]

/-! ### SyncRegistry (pkg/exporter engine sources)

`SyncRegistry.SendEvent` runs `s.reg[name].Send(...)` and logs any
returned error at debug level.  In Go, looking up a missing key in the
`map[string]sinks.Sink` yields the nil interface value, and invoking a
method on a nil interface is a runtime panic; the embedding makes that
control-flow outcome explicit. -/

/-- Outcome of a Go function call that may panic. -/
inductive GoPanic where
  | nilInterfaceMethodCall
deriving DecidableEq, Repr

/-- `SyncRegistry.SendEvent(name, event)`: the registry maps each
registered name to the result the bound Sink.Send would return for the
event under consideration.  A registered sink has its error logged and
swallowed; a missing name panics on the nil interface method call. -/
def syncSendEvent (reg : List (String × Except String Unit)) (name : String) :
    Except GoPanic Unit :=
  match mlookup reg name with
  | none => .error .nilInterfaceMethodCall
  | some (.ok _) => .ok ()
  | some (.error _e) => .ok ()

/-- C3 (code bug evidence): `SendEvent` on a registry with no sink
registered under the requested name does not return normally: the code
calls `Send` on the nil interface obtained from the map lookup and
panics, where the spec requires the missing name to be logged and
swallowed.  An erroring registered sink, in contrast, is swallowed. -/
theorem syncSendEvent_missing_name_panics :
    syncSendEvent [] "r1" = .error .nilInterfaceMethodCall
      ∧ syncSendEvent [("r1", .error "boom")] "r1" = .ok () := ⟨rfl, rfl⟩

/-! ### Slack sink (pkg/sinks/slack.go)

`SlackSink.Send` is embedded as a function of
* the sink configuration,
* an oracle `ge` giving the result of `GetString(ev, template)` for the
  event being processed,
* the responses of the Slack API for this invocation, and
* the `threadTS` map (the per-process thread state).
It returns the Slack API calls performed, the Go return value, and the
updated `threadTS` map. -/

/-- `SlackConfig`; `fields` is `none` when the YAML key is absent
(`s.cfg.Fields != nil` in Go). -/
structure SlackConfig where
  channel : String := ""
  message : String := ""
  color : String := ""
  footer : String := ""
  title : String := ""
  authorName : String := ""
  fields : Option (List (String × String)) := none
  threadKey : String := ""
  completionCondition : String := ""
  completionEmoji : String := "white_check_mark"

/-- Slack API responses for one `Send` invocation:
`sendResult` is the `(ts, err)` outcome of `SendMessageContext`, and
`reactionResult` the error, if any, of `AddReactionContext`. -/
structure SlackNet where
  sendResult : Except String String
  reactionResult : Option String := none

/-- The Slack API calls `Send` can perform. -/
inductive SlackAction where
  | postMessage (channel message : String) (threadTS : Option String)
  | addReaction (emoji channel timestamp : String)
deriving DecidableEq, Repr

/-- Result of one embedded `SlackSink.Send` invocation. -/
structure SlackOutcome where
  actions : List SlackAction
  result : Except String Unit
  threadTS : List (String × String)
deriving Repr

/-- The field-value evaluation loop of `Send` (slack.go lines 62-73):
the first template error aborts the call. -/
def evalFieldValues (ge : String → Except String String) :
    List (String × String) → Except String Unit
  | [] => .ok ()
  | (_, v) :: rest =>
    match ge v with
    | .error e => .error e
    | .ok _ => evalFieldValues ge rest

/-- Evaluation of an optional attachment template (authorName, color,
title, footer): evaluated only when the configured string is non-empty. -/
def evalOptionalTemplate (ge : String → Except String String) (tmpl : String) :
    Except String Unit :=
  if tmpl = "" then .ok ()
  else
    match ge tmpl with
    | .error e => .error e
    | .ok _ => .ok ()

/-- The attachment-building block of `Send` (slack.go lines 60-108),
entered only when `Fields` is non-nil; any template error is returned. -/
def buildAttachment (cfg : SlackConfig) (ge : String → Except String String) :
    Except String Unit :=
  match cfg.fields with
  | none => .ok ()
  | some fs =>
    match evalFieldValues ge fs with
    | .error e => .error e
    | .ok _ =>
      match evalOptionalTemplate ge cfg.authorName with
      | .error e => .error e
      | .ok _ =>
        match evalOptionalTemplate ge cfg.color with
        | .error e => .error e
        | .ok _ =>
          match evalOptionalTemplate ge cfg.title with
          | .error e => .error e
          | .ok _ => evalOptionalTemplate ge cfg.footer

/-- The `isCompletion` computation of `Send` (slack.go lines 133-141): a
template error is logged and treated as non-completion. -/
def slackIsCompletion (cfg : SlackConfig) (ge : String → Except String String) : Bool :=
  if cfg.completionCondition ≠ "" then
    match ge cfg.completionCondition with
    | .ok res => res ≠ ""
    | .error _ => false
  else false

/-- Sending without threading (slack.go lines 110-131): one top-level
`SendMessageContext` call, whose error, if any, is returned; the
`threadTS` map is untouched. -/
def sendUnthreaded (channel message : String) (net : SlackNet)
    (st : List (String × String)) : SlackOutcome :=
  { actions := [.postMessage channel message none]
    result :=
      match net.sendResult with
      | .ok _ => .ok ()
      | .error e => .error e
    threadTS := st }

/-- `SlackSink.Send` (slack.go lines 48-179). -/
def slackSend (cfg : SlackConfig) (ge : String → Except String String)
    (net : SlackNet) (st : List (String × String)) : SlackOutcome :=
  match ge cfg.channel with
  | .error e => { actions := [], result := .error e, threadTS := st }
  | .ok channel =>
  match ge cfg.message with
  | .error e => { actions := [], result := .error e, threadTS := st }
  | .ok message =>
  match buildAttachment cfg ge with
  | .error e => { actions := [], result := .error e, threadTS := st }
  | .ok _ =>
  if cfg.threadKey = "" then
    sendUnthreaded channel message net st
  else
  match ge cfg.threadKey with
  | .error _ => sendUnthreaded channel message net st
  | .ok threadKey =>
  if threadKey = "" then
    sendUnthreaded channel message net st
  else
    let isCompletion := slackIsCompletion cfg ge
    let parentTS? := mlookup st threadKey
    match net.sendResult with
    | .error e =>
      { actions := [.postMessage channel message parentTS?], result := .error e, threadTS := st }
    | .ok ts =>
      match parentTS? with
      | some parentTS =>
        if isCompletion then
          { actions := [.postMessage channel message (some parentTS),
              .addReaction cfg.completionEmoji channel parentTS]
            result := .ok ()
            threadTS := mdelete st threadKey }
        else
          { actions := [.postMessage channel message (some parentTS)]
            result := .ok ()
            threadTS := st }
      | none =>
        if isCompletion then
          { actions := [.postMessage channel message none], result := .ok (), threadTS := st }
        else
          { actions := [.postMessage channel message none]
            result := .ok ()
            threadTS := minsert st threadKey ts }

/-- The channel, message and attachment templates of the invocation all
evaluate successfully. -/
def resolvesBasics (cfg : SlackConfig) (ge : String → Except String String)
    (channel message : String) : Prop :=
  ge cfg.channel = .ok channel ∧ ge cfg.message = .ok message
    ∧ buildAttachment cfg ge = .ok ()

/-- C5: when the thread-key template fails or evaluates to the empty
string, the event is sent as one unthreaded message, the threadTS map is
untouched, and the return value is exactly the outcome of the message
send, so the unresolvable key itself is never a failure of Send. -/
theorem slack_unresolvable_key (cfg : SlackConfig) (ge : String → Except String String)
    (net : SlackNet) (st : List (String × String)) (channel message : String)
    (hb : resolvesBasics cfg ge channel message)
    (htk : cfg.threadKey ≠ "")
    (hkey : (∃ e, ge cfg.threadKey = .error e) ∨ ge cfg.threadKey = .ok "") :
    slackSend cfg ge net st =
      { actions := [.postMessage channel message none]
        result :=
          match net.sendResult with
          | .ok _ => .ok ()
          | .error e => .error e
        threadTS := st } := by
  obtain ⟨hch, hmsg, hatt⟩ := hb
  rcases hkey with ⟨e, he⟩ | he
  · simp [slackSend, hch, hmsg, hatt, htk, he, sendUnthreaded]
  · simp [slackSend, hch, hmsg, hatt, htk, he, sendUnthreaded]

/-- C5 witness: a failing thread-key template on a concrete
configuration produces one unthreaded post and leaves the map alone. -/
theorem slack_unresolvable_key_witness :
    slackSend { channel := "#c", message := "m", threadKey := "tk" }
        (fun t => if t = "tk" then .error "bad template" else .ok t)
        { sendResult := .ok "ts9" } [("other", "ts0")] =
      { actions := [.postMessage "#c" "m" none]
        result :=
          match (Except.ok "ts9" : Except String String) with
          | .ok _ => .ok ()
          | .error e => .error e
        threadTS := [("other", "ts0")] } :=
  slack_unresolvable_key
    { channel := "#c", message := "m", threadKey := "tk" }
    (fun t => if t = "tk" then .error "bad template" else .ok t)
    { sendResult := .ok "ts9" } [("other", "ts0")] "#c" "m"
    ⟨rfl, rfl, rfl⟩ (by decide) (Or.inl ⟨"bad template", rfl⟩)

/-- C8: for a completion event whose resolved key has no stored record,
Send posts one top-level message and the threadTS map is returned
unchanged: no record for any key is created or deleted. -/
theorem slack_absent_completion (cfg : SlackConfig) (ge : String → Except String String)
    (net : SlackNet) (st : List (String × String))
    (channel message threadKey ts : String)
    (hb : resolvesBasics cfg ge channel message)
    (htk : cfg.threadKey ≠ "")
    (hkey : ge cfg.threadKey = .ok threadKey) (hne : threadKey ≠ "")
    (hcomp : slackIsCompletion cfg ge = true)
    (habs : mlookup st threadKey = none)
    (hsend : net.sendResult = .ok ts) :
    slackSend cfg ge net st =
      { actions := [.postMessage channel message none], result := .ok (), threadTS := st } := by
  obtain ⟨hch, hmsg, hatt⟩ := hb
  simp [slackSend, hch, hmsg, hatt, htk, hkey, hne, hcomp, habs, hsend]

/-- C8 witness: a concrete completion event with no open thread for its
key posts top level and leaves a non-empty map exactly as it was. -/
theorem slack_absent_completion_witness :
    slackSend { channel := "#c", message := "m", threadKey := "tk", completionCondition := "cc" }
        (fun t => if t = "cc" then .ok "done" else .ok t)
        { sendResult := .ok "ts5" } [("other", "ts0")] =
      { actions := [.postMessage "#c" "m" none], result := .ok ()
        threadTS := [("other", "ts0")] } :=
  slack_absent_completion
    { channel := "#c", message := "m", threadKey := "tk", completionCondition := "cc" }
    (fun t => if t = "cc" then .ok "done" else .ok t)
    { sendResult := .ok "ts5" } [("other", "ts0")] "#c" "m" "tk" "ts5"
    ⟨rfl, rfl, rfl⟩ (by decide) rfl (by decide) rfl rfl rfl

/-- C4: the session life cycle for a fixed conversation key K starting
from a state with no record for K: the first non-completion event posts
top level and stores the returned timestamp under K; the second
non-completion event posts as a reply to the stored timestamp and the
map is unchanged; the completion event posts as a reply, adds the
completion reaction to the stored parent message, and the resulting map
is exactly the initial one, so a later event with key K is processed
from the same state as if K had never been seen. -/
theorem slack_session_sequence
    (cfg : SlackConfig) (ge1 ge2 ge3 : String → Except String String)
    (net1 net2 net3 : SlackNet) (st0 : List (String × String))
    (K ch1 ch2 ch3 m1 m2 m3 ts1 ts2 ts3 : String)
    (htk : cfg.threadKey ≠ "") (hKne : K ≠ "")
    (h1b : resolvesBasics cfg ge1 ch1 m1) (h1k : ge1 cfg.threadKey = .ok K)
    (h1c : slackIsCompletion cfg ge1 = false) (h1n : net1.sendResult = .ok ts1)
    (h2b : resolvesBasics cfg ge2 ch2 m2) (h2k : ge2 cfg.threadKey = .ok K)
    (h2c : slackIsCompletion cfg ge2 = false) (h2n : net2.sendResult = .ok ts2)
    (h3b : resolvesBasics cfg ge3 ch3 m3) (h3k : ge3 cfg.threadKey = .ok K)
    (h3c : slackIsCompletion cfg ge3 = true) (h3n : net3.sendResult = .ok ts3)
    (h0 : mlookup st0 K = none) :
    slackSend cfg ge1 net1 st0 =
      { actions := [.postMessage ch1 m1 none], result := .ok ()
        threadTS := minsert st0 K ts1 } ∧
    slackSend cfg ge2 net2 (minsert st0 K ts1) =
      { actions := [.postMessage ch2 m2 (some ts1)], result := .ok ()
        threadTS := minsert st0 K ts1 } ∧
    slackSend cfg ge3 net3 (minsert st0 K ts1) =
      { actions := [.postMessage ch3 m3 (some ts1),
          .addReaction cfg.completionEmoji ch3 ts1]
        result := .ok ()
        threadTS := st0 } := by
  obtain ⟨h1ch, h1m, h1a⟩ := h1b
  obtain ⟨h2ch, h2m, h2a⟩ := h2b
  obtain ⟨h3ch, h3m, h3a⟩ := h3b
  refine ⟨?_, ?_, ?_⟩
  · simp [slackSend, h1ch, h1m, h1a, htk, h1k, hKne, h1c, h1n, h0]
  · simp [slackSend, h2ch, h2m, h2a, htk, h2k, hKne, h2c, h2n, mlookup_minsert_self]
  · simp [slackSend, h3ch, h3m, h3a, htk, h3k, hKne, h3c, h3n, mlookup_minsert_self,
      mdelete_minsert_self st0 K ts1 h0]

/-- C4 witness: a concrete three-event session on key tk: open, reply,
complete; the map ends empty, exactly the initial state. -/
theorem slack_session_sequence_witness :
    slackSend { channel := "#c", message := "m", threadKey := "tk", completionCondition := "cc" }
        (fun t => if t = "cc" then .ok "" else .ok t)
        { sendResult := .ok "ts1" } [] =
      { actions := [.postMessage "#c" "m" none], result := .ok ()
        threadTS := minsert [] "tk" "ts1" } ∧
    slackSend { channel := "#c", message := "m", threadKey := "tk", completionCondition := "cc" }
        (fun t => if t = "cc" then .ok "" else .ok t)
        { sendResult := .ok "ts2" } (minsert [] "tk" "ts1") =
      { actions := [.postMessage "#c" "m" (some "ts1")], result := .ok ()
        threadTS := minsert [] "tk" "ts1" } ∧
    slackSend { channel := "#c", message := "m", threadKey := "tk", completionCondition := "cc" }
        (fun t => if t = "cc" then .ok "done" else .ok t)
        { sendResult := .ok "ts3" } (minsert [] "tk" "ts1") =
      { actions := [.postMessage "#c" "m" (some "ts1"),
          .addReaction "white_check_mark" "#c" "ts1"]
        result := .ok ()
        threadTS := [] } :=
  slack_session_sequence
    { channel := "#c", message := "m", threadKey := "tk", completionCondition := "cc" }
    (fun t => if t = "cc" then .ok "" else .ok t)
    (fun t => if t = "cc" then .ok "" else .ok t)
    (fun t => if t = "cc" then .ok "done" else .ok t)
    { sendResult := .ok "ts1" } { sendResult := .ok "ts2" } { sendResult := .ok "ts3" }
    [] "tk" "#c" "#c" "#c" "m" "m" "m" "ts1" "ts2" "ts3"
    (by decide) (by decide)
    ⟨rfl, rfl, rfl⟩ rfl rfl rfl
    ⟨rfl, rfl, rfl⟩ rfl rfl rfl
    ⟨rfl, rfl, rfl⟩ rfl rfl rfl
    rfl

/-! ### Thread state store (pkg/sinks/slack_cache.go)

Two backends implement the `ThreadCache` contract
`Get(key) -> (threadInfo, found)`, `Set(key, info) -> error`,
`Delete(key) -> error`: the mutex-guarded in-memory map, and the
ConfigMap-persisted variant, whose writes go through
`retry.RetryOnConflict(retry.DefaultRetry, ...)` from client-go. -/

/-- `threadInfo` from slack_cache.go. -/
structure ThreadInfo where
  timestamp : String := ""
  channelID : String := ""
deriving DecidableEq, Repr

/-- `InMemoryCache.Get`: map lookup; absence is reported through the
Boolean, the zero value is returned for a missing key, and no error is
possible. -/
def imGet (c : List (String × ThreadInfo)) (key : String) : ThreadInfo × Bool :=
  match mlookup c key with
  | some info => (info, true)
  | none => ({}, false)

/-- `InMemoryCache.Set`: map store; always returns nil. -/
def imSet (c : List (String × ThreadInfo)) (key : String) (info : ThreadInfo) :
    List (String × ThreadInfo) × Except String Unit :=
  (minsert c key info, .ok ())

/-- `InMemoryCache.Delete`: map delete; always returns nil. -/
def imDelete (c : List (String × ThreadInfo)) (key : String) :
    List (String × ThreadInfo) × Except String Unit :=
  (mdelete c key, .ok ())

/-- Errors returned by the Kubernetes API in the embedding: a
resource-version conflict, or any other error. -/
inductive K8sErr where
  | conflict
  | other (msg : String)
deriving DecidableEq, Repr

instance {ε α : Type} [DecidableEq ε] [DecidableEq α] : DecidableEq (Except ε α)
  | .ok x, .ok y =>
    if h : x = y then .isTrue (congrArg Except.ok h)
    else .isFalse (fun hc => h (Except.ok.inj hc))
  | .error x, .error y =>
    if h : x = y then .isTrue (congrArg Except.error h)
    else .isFalse (fun hc => h (Except.error.inj hc))
  | .ok _, .error _ => .isFalse (fun hc => Except.noConfusion hc)
  | .error _, .ok _ => .isFalse (fun hc => Except.noConfusion hc)

/-- One attempt of `ConfigMapCache.save` observed from outside: the
result of the ConfigMaps Get call and of the Update call. -/
structure CMAttempt where
  getResult : Except K8sErr Unit
  updateResult : Option K8sErr
deriving DecidableEq, Repr

/-- The externally visible steps of each `save` attempt. -/
inductive CMAction where
  | serialize (doc : List (String × ThreadInfo))
  | fetchConfigMap
  | updateConfigMap (doc : List (String × ThreadInfo))
deriving DecidableEq, Repr

/-- One pass of the closure given to `retry.RetryOnConflict` inside
`ConfigMapCache.save` (slack_cache.go lines 137-157): marshal the whole
mirror, fetch the ConfigMap, write the serialized mirror back.
Marshalling a string map cannot fail and is modelled as succeeding. -/
def saveAttempt (mirror : List (String × ThreadInfo)) (att : CMAttempt) :
    List CMAction × Except K8sErr Unit :=
  match att.getResult with
  | .error e => ([.serialize mirror, .fetchConfigMap], .error e)
  | .ok _ =>
    match att.updateResult with
    | some e => ([.serialize mirror, .fetchConfigMap, .updateConfigMap mirror], .error e)
    | none => ([.serialize mirror, .fetchConfigMap, .updateConfigMap mirror], .ok ())

/-- `retry.DefaultRetry.Steps` in client-go: at most 5 attempts. -/
def retryConflictSteps : Nat := 5

/-- The attempt loop of `retry.RetryOnConflict`: attempt `i` of the
environment is executed; success stops, a conflict moves on to the next
attempt while fuel remains and is returned once fuel runs out, and any
other error is returned immediately. -/
def saveLoop (env : Nat → CMAttempt) (mirror : List (String × ThreadInfo)) :
    Nat → Nat → List CMAction × Except K8sErr Unit
  | 0, _ => ([], .error .conflict)
  | fuel + 1, i =>
    let (acts, res) := saveAttempt mirror (env i)
    match res with
    | .ok _ => (acts, .ok ())
    | .error .conflict =>
      if fuel = 0 then (acts, .error .conflict)
      else
        let rest := saveLoop env mirror fuel (i + 1)
        (acts ++ rest.1, rest.2)
    | .error (.other m) => (acts, .error (.other m))

/-- `ConfigMapCache.save`: the retry loop run with the client-go
DefaultRetry budget. -/
def cmSave (env : Nat → CMAttempt) (mirror : List (String × ThreadInfo)) :
    List CMAction × Except K8sErr Unit :=
  saveLoop env mirror retryConflictSteps 0

/-- Result of an embedded `ConfigMapCache.Set` or `Delete`. -/
structure CMOutcome where
  mirror : List (String × ThreadInfo)
  actions : List CMAction
  result : Except K8sErr Unit
deriving Repr

/-- `ConfigMapCache.Set` (slack_cache.go lines 167-173): mutate the
mirror under the lock, then run `save`. -/
def cmSet (env : Nat → CMAttempt) (st : List (String × ThreadInfo))
    (key : String) (info : ThreadInfo) : CMOutcome :=
  let st1 := minsert st key info
  let saved := cmSave env st1
  { mirror := st1, actions := saved.1, result := saved.2 }

/-- `ConfigMapCache.Delete` (slack_cache.go lines 175-181): mutate the
mirror under the lock, then run `save`. -/
def cmDelete (env : Nat → CMAttempt) (st : List (String × ThreadInfo))
    (key : String) : CMOutcome :=
  let st1 := mdelete st key
  let saved := cmSave env st1
  { mirror := st1, actions := saved.1, result := saved.2 }

/-- `ConfigMapCache.Get` (slack_cache.go lines 160-165): read the
in-process mirror only; no error is possible. -/
def cmGet (st : List (String × ThreadInfo)) (key : String) : ThreadInfo × Bool :=
  match mlookup st key with
  | some info => (info, true)
  | none => ({}, false)

/-- The client-go `wait.Backoff` parameters that matter for the delay
schedule; `retry.DefaultRetry` is `{Steps: 5, Duration: 10ms,
Factor: 1.0, Jitter: 0.1}`. -/
structure Backoff where
  steps : Nat
  durationMs : ℚ
  factor : ℚ
  jitter : ℚ

def defaultRetry : Backoff :=
  { steps := 5, durationMs := 10, factor := 1, jitter := 1 / 10 }

/-- Deterministic part of the delay before retry `i`: `Backoff.Step`
multiplies the stored duration by `factor` after each attempt, so the
i-th delay is `durationMs * factor ^ i` (jitter adds a random fraction
of the current duration on top and never compounds). -/
def backoffDelay (b : Backoff) (i : Nat) : ℚ :=
  b.durationMs * b.factor ^ i

/-- C9: for both store backends, Set(k, r) then Get(k) yields (r, true)
and Delete(k) then Get(k) reports found = false; the local backend
returns nil from Set and Delete, and for the persisted backend the laws
hold whatever the Kubernetes API answers, because Get reads the mirror
that was mutated before the save. -/
theorem thread_store_get_set_delete :
    (∀ (c : List (String × ThreadInfo)) (key : String) (info : ThreadInfo),
        imGet (imSet c key info).1 key = (info, true)
        ∧ (imSet c key info).2 = .ok ()
        ∧ imGet (imDelete c key).1 key = ({}, false)
        ∧ (imDelete c key).2 = .ok ())
    ∧ (∀ (env : Nat → CMAttempt) (st : List (String × ThreadInfo))
          (key : String) (info : ThreadInfo),
        cmGet (cmSet env st key info).mirror key = (info, true)
        ∧ cmGet (cmDelete env st key).mirror key = ({}, false)) := by
  constructor
  · intro c key info
    refine ⟨?_, rfl, ?_, rfl⟩
    · simp [imGet, imSet, mlookup_minsert_self]
    · simp [imGet, imDelete, mlookup_mdelete_self]
  · intro env st key info
    constructor
    · simp [cmGet, cmSet, mlookup_minsert_self]
    · simp [cmGet, cmDelete, mlookup_mdelete_self]

/-- Attempt `i` of the environment reports a version conflict (from the
Update call). -/
def conflictAt (env : Nat → CMAttempt) (i : Nat) : Prop :=
  (env i).getResult = .ok () ∧ (env i).updateResult = some .conflict

/-- Attempt `i` of the environment succeeds. -/
def succeedsAt (env : Nat → CMAttempt) (i : Nat) : Prop :=
  (env i).getResult = .ok () ∧ (env i).updateResult = none

/-- The external steps of one full save attempt. -/
def saveCycle (mirror : List (String × ThreadInfo)) : List CMAction :=
  [.serialize mirror, .fetchConfigMap, .updateConfigMap mirror]

theorem saveLoop_all_conflict (env : Nat → CMAttempt) (mirror : List (String × ThreadInfo)) :
    ∀ fuel i, 0 < fuel → (∀ j, j < fuel → conflictAt env (i + j)) →
      saveLoop env mirror fuel i =
        ((List.replicate fuel (saveCycle mirror)).flatten, .error .conflict) := by
  intro fuel
  induction fuel with
  | zero => intro i h; omega
  | succ f ih =>
    intro i _ hconf
    obtain ⟨hg, hu⟩ : conflictAt env i := by simpa using hconf 0 (by omega)
    by_cases hf : f = 0
    · subst hf
      simp [saveLoop, saveAttempt, hg, hu, saveCycle]
    · have ihh := ih (i + 1) (by omega) (fun j hj => by
        have h := hconf (j + 1) (by omega)
        rwa [show i + (j + 1) = i + 1 + j by omega] at h)
      simp [saveLoop, saveAttempt, hg, hu, hf, ihh, saveCycle, List.replicate_succ]

theorem saveLoop_conflicts_then_ok (env : Nat → CMAttempt) (mirror : List (String × ThreadInfo)) :
    ∀ j fuel i, j < fuel → (∀ k, k < j → conflictAt env (i + k)) → succeedsAt env (i + j) →
      saveLoop env mirror fuel i =
        ((List.replicate (j + 1) (saveCycle mirror)).flatten, .ok ()) := by
  intro j
  induction j with
  | zero =>
    intro fuel i hj _ hok
    obtain ⟨hg, hu⟩ := hok
    cases fuel with
    | zero => omega
    | succ f =>
      simp only [Nat.add_zero] at hg hu
      simp [saveLoop, saveAttempt, hg, hu, saveCycle]
  | succ g ih =>
    intro fuel i hj hconf hok
    cases fuel with
    | zero => omega
    | succ f =>
      obtain ⟨hg0, hu0⟩ : conflictAt env i := by simpa using hconf 0 (by omega)
      have hf : f ≠ 0 := by omega
      have ihh := ih f (i + 1) (by omega)
        (fun k hk => by
          have h := hconf (k + 1) (by omega)
          rwa [show i + (k + 1) = i + 1 + k by omega] at h)
        (by
          have h := hok
          rwa [show i + (g + 1) = i + 1 + g by omega] at h)
      simp [saveLoop, saveAttempt, hg0, hu0, hf, ihh, saveCycle, List.replicate_succ]

/-- C6 counterexample: the retry budget of `ConfigMapCache.save` is
client-go `retry.DefaultRetry`, whose Factor is 1.0: the deterministic
part of the delay is 10ms before every retry, identical from one attempt
to the next, so the schedule is a constant backoff and not the
exponential backoff the claim states. -/
theorem configmap_backoff_not_exponential :
    defaultRetry.factor = 1
    ∧ backoffDelay defaultRetry 1 = backoffDelay defaultRetry 0
    ∧ ¬ backoffDelay defaultRetry 0 < backoffDelay defaultRetry 1 := by
  refine ⟨rfl, ?_, ?_⟩ <;> norm_num [backoffDelay, defaultRetry]

/-- C6 amended: every Set and Delete mutates the in-process mirror
first, then runs save, and each save attempt serializes the entire
mirror, fetches the current ConfigMap and writes the serialized mirror
back; on a version conflict the full cycle is retried with a bounded
constant-delay backoff (client-go DefaultRetry: at most 5 attempts,
deterministic delay 10ms at every attempt since Factor is 1.0, not
exponentially growing), the conflict error is returned only once all 5
attempts have conflicted, and the operation succeeds as soon as some
attempt within the budget succeeds. -/
theorem configmap_set_delete_retry
    (envC envS : Nat → CMAttempt) (st : List (String × ThreadInfo))
    (key : String) (info : ThreadInfo) (j : Nat)
    (hC : ∀ i, i < retryConflictSteps → conflictAt envC i)
    (hj : j < retryConflictSteps)
    (hS1 : ∀ k, k < j → conflictAt envS k)
    (hS2 : succeedsAt envS j) :
    (cmSet envC st key info).mirror = minsert st key info
    ∧ (cmDelete envC st key).mirror = mdelete st key
    ∧ (cmSet envC st key info).actions
        = (List.replicate retryConflictSteps (saveCycle (minsert st key info))).flatten
    ∧ (cmSet envC st key info).result = .error .conflict
    ∧ (cmSet envS st key info).actions
        = (List.replicate (j + 1) (saveCycle (minsert st key info))).flatten
    ∧ (cmSet envS st key info).result = .ok ()
    ∧ (cmDelete envC st key).actions
        = (List.replicate retryConflictSteps (saveCycle (mdelete st key))).flatten
    ∧ (cmDelete envC st key).result = .error .conflict
    ∧ (cmDelete envS st key).actions
        = (List.replicate (j + 1) (saveCycle (mdelete st key))).flatten
    ∧ (cmDelete envS st key).result = .ok ()
    ∧ backoffDelay defaultRetry j = 10 := by
  have hCset := saveLoop_all_conflict envC (minsert st key info) retryConflictSteps 0
    (by decide) (fun jj hjj => by simpa using hC jj hjj)
  have hCdel := saveLoop_all_conflict envC (mdelete st key) retryConflictSteps 0
    (by decide) (fun jj hjj => by simpa using hC jj hjj)
  have hSset := saveLoop_conflicts_then_ok envS (minsert st key info) j retryConflictSteps 0
    hj (fun k hk => by simpa using hS1 k hk) (by simpa using hS2)
  have hSdel := saveLoop_conflicts_then_ok envS (mdelete st key) j retryConflictSteps 0
    hj (fun k hk => by simpa using hS1 k hk) (by simpa using hS2)
  refine ⟨rfl, rfl, ?_, ?_, ?_, ?_, ?_, ?_, ?_, ?_, ?_⟩
  · simp [cmSet, cmSave, hCset]
  · simp [cmSet, cmSave, hCset]
  · simp [cmSet, cmSave, hSset]
  · simp [cmSet, cmSave, hSset]
  · simp [cmDelete, cmSave, hCdel]
  · simp [cmDelete, cmSave, hCdel]
  · simp [cmDelete, cmSave, hSdel]
  · simp [cmDelete, cmSave, hSdel]
  · simp [backoffDelay, defaultRetry]

/-- C6 witness: with every attempt conflicting the Set on key k performs
5 full cycles and returns the conflict; with the first two attempts
conflicting and the third succeeding it performs 3 full cycles and
returns nil; the mirror holds the mutation in both cases. -/
theorem configmap_set_delete_retry_witness :
    (cmSet (fun _ => { getResult := .ok (), updateResult := some .conflict }) [] "k" {}).mirror
        = minsert [] "k" {}
    ∧ (cmDelete (fun _ => { getResult := .ok (), updateResult := some .conflict }) [] "k").mirror
        = mdelete [] "k"
    ∧ (cmSet (fun _ => { getResult := .ok (), updateResult := some .conflict }) [] "k" {}).actions
        = (List.replicate retryConflictSteps (saveCycle (minsert [] "k" {}))).flatten
    ∧ (cmSet (fun _ => { getResult := .ok (), updateResult := some .conflict }) [] "k" {}).result
        = .error .conflict
    ∧ (cmSet (fun i => if i < 2 then { getResult := .ok (), updateResult := some .conflict }
          else { getResult := .ok (), updateResult := none }) [] "k" {}).actions
        = (List.replicate (2 + 1) (saveCycle (minsert [] "k" {}))).flatten
    ∧ (cmSet (fun i => if i < 2 then { getResult := .ok (), updateResult := some .conflict }
          else { getResult := .ok (), updateResult := none }) [] "k" {}).result = .ok ()
    ∧ (cmDelete (fun _ => { getResult := .ok (), updateResult := some .conflict }) [] "k").actions
        = (List.replicate retryConflictSteps (saveCycle (mdelete [] "k"))).flatten
    ∧ (cmDelete (fun _ => { getResult := .ok (), updateResult := some .conflict }) [] "k").result
        = .error .conflict
    ∧ (cmDelete (fun i => if i < 2 then { getResult := .ok (), updateResult := some .conflict }
          else { getResult := .ok (), updateResult := none }) [] "k").actions
        = (List.replicate (2 + 1) (saveCycle (mdelete [] "k"))).flatten
    ∧ (cmDelete (fun i => if i < 2 then { getResult := .ok (), updateResult := some .conflict }
          else { getResult := .ok (), updateResult := none }) [] "k").result = .ok ()
    ∧ backoffDelay defaultRetry 2 = 10 :=
  configmap_set_delete_retry
    (fun _ => { getResult := .ok (), updateResult := some .conflict })
    (fun i => if i < 2 then { getResult := .ok (), updateResult := some .conflict }
      else { getResult := .ok (), updateResult := none })
    [] "k" {} 2
    (fun _ _ => ⟨rfl, rfl⟩)
    (by decide)
    (fun k hk => by interval_cases k <;> exact ⟨rfl, rfl⟩)
    ⟨rfl, rfl⟩

/-! ### Webhook sink (pkg/sinks/webhook.go)

`Webhook.Send` is embedded as a function of the configuration and an
environment carrying the outcomes of the external steps: event
serialization, request construction, the template oracle for header
values, and the HTTP round trip. -/

/-- The HTTP response as `Send` observes it: the status code and the
outcome of reading the body. -/
structure HttpResponse where
  statusCode : Nat
  bodyResult : Except String String
deriving Repr

/-- Outcomes of the external steps of one `Webhook.Send` invocation. -/
structure WebhookEnv where
  serializeResult : Except String String
  newRequestResult : Except String Unit
  headerEval : String → Except String String
  doResult : Except String HttpResponse

/-- `WebhookConfig`; only the parts `Send` reads are kept. -/
structure WebhookConfig where
  endpoint : String := ""
  headers : List (String × String) := []

/-- The header loop of `Send` (webhook.go lines 55-64): a template
failure is logged and the raw template text is used as the value. -/
def renderHeaders (ge : String → Except String String) :
    List (String × String) → List (String × String)
  | [] => []
  | (k, v) :: rest =>
    (match ge v with
     | .error _ => (k, v)
     | .ok rv => (k, rv)) :: renderHeaders ge rest

/-- `Webhook.Send` (webhook.go lines 43-84): returns the request headers
that were set and the Go return value. -/
def webhookSend (cfg : WebhookConfig) (env : WebhookEnv) :
    List (String × String) × Except String Unit :=
  match env.serializeResult with
  | .error e => ([], .error e)
  | .ok _body =>
  match env.newRequestResult with
  | .error e => ([], .error e)
  | .ok _ =>
  let hdrs := ("Content-Type", "application/json") :: renderHeaders env.headerEval cfg.headers
  match env.doResult with
  | .error e => (hdrs, .error e)
  | .ok resp =>
  match resp.bodyResult with
  | .error e => (hdrs, .error e)
  | .ok body =>
  if 200 ≤ resp.statusCode ∧ resp.statusCode < 300 then (hdrs, .ok ())
  else (hdrs, .error ("not successfull (2xx) response: " ++ body))

/-- C10: `Webhook.Send` returns nil exactly when every external step
succeeds and the status code is in [200, 300); a response outside that
range produces an error whose message is the fixed text followed by the
response body; and a serialization, request-construction, transport or
body-read failure is returned as the underlying error. -/
theorem webhook_send_status (cfg : WebhookConfig) (env : WebhookEnv) :
    ((webhookSend cfg env).2 = .ok ()
      ↔ (∃ b, env.serializeResult = .ok b) ∧ env.newRequestResult = .ok ()
          ∧ ∃ resp, env.doResult = .ok resp ∧ (∃ body, resp.bodyResult = .ok body)
              ∧ 200 ≤ resp.statusCode ∧ resp.statusCode < 300)
    ∧ (∀ b resp body, env.serializeResult = .ok b → env.newRequestResult = .ok ()
        → env.doResult = .ok resp → resp.bodyResult = .ok body
        → ¬(200 ≤ resp.statusCode ∧ resp.statusCode < 300)
        → (webhookSend cfg env).2 = .error ("not successfull (2xx) response: " ++ body))
    ∧ (∀ e, env.serializeResult = .error e → (webhookSend cfg env).2 = .error e)
    ∧ (∀ b e, env.serializeResult = .ok b → env.newRequestResult = .error e
        → (webhookSend cfg env).2 = .error e)
    ∧ (∀ b e, env.serializeResult = .ok b → env.newRequestResult = .ok ()
        → env.doResult = .error e → (webhookSend cfg env).2 = .error e)
    ∧ (∀ b resp e, env.serializeResult = .ok b → env.newRequestResult = .ok ()
        → env.doResult = .ok resp → resp.bodyResult = .error e
        → (webhookSend cfg env).2 = .error e) := by
  refine ⟨?_, ?_, ?_, ?_, ?_, ?_⟩
  · constructor
    · intro h
      cases hs : env.serializeResult with
      | error e => simp [webhookSend, hs] at h
      | ok b =>
        cases hr : env.newRequestResult with
        | error e => simp [webhookSend, hs, hr] at h
        | ok u =>
          cases hd : env.doResult with
          | error e => simp [webhookSend, hs, hr, hd] at h
          | ok resp =>
            cases hb : resp.bodyResult with
            | error e => simp [webhookSend, hs, hr, hd, hb] at h
            | ok body =>
              by_cases hst : 200 ≤ resp.statusCode ∧ resp.statusCode < 300
              · exact ⟨⟨b, rfl⟩, by cases u; rfl, resp, rfl, ⟨body, hb⟩, hst⟩
              · simp [webhookSend, hs, hr, hd, hb, hst] at h
    · rintro ⟨⟨b, hs⟩, hr, resp, hd, ⟨body, hb⟩, hst⟩
      simp [webhookSend, hs, hr, hd, hb, hst]
  · intro b resp body hs hr hd hb hst
    simp [webhookSend, hs, hr, hd, hb, hst]
  · intro e hs
    simp [webhookSend, hs]
  · intro b e hs hr
    simp [webhookSend, hs, hr]
  · intro b e hs hr hd
    simp [webhookSend, hs, hr, hd]
  · intro b resp e hs hr hd hb
    simp [webhookSend, hs, hr, hd, hb]

/-- C10 witness: a concrete environment with a 503 response whose body
is "overloaded": Send returns the fixed error text with the body
appended, and the same environment with status 204 returns nil. -/
theorem webhook_send_status_witness :
    (webhookSend { endpoint := "https://example.test/hook" }
      { serializeResult := .ok "{}"
        newRequestResult := .ok ()
        headerEval := fun t => .ok t
        doResult := .ok { statusCode := 503, bodyResult := .ok "overloaded" } }).2
      = .error ("not successfull (2xx) response: " ++ "overloaded")
    ∧ (webhookSend { endpoint := "https://example.test/hook" }
      { serializeResult := .ok "{}"
        newRequestResult := .ok ()
        headerEval := fun t => .ok t
        doResult := .ok { statusCode := 204, bodyResult := .ok "" } }).2 = .ok () := by
  constructor
  · exact (webhook_send_status { endpoint := "https://example.test/hook" }
      { serializeResult := .ok "{}"
        newRequestResult := .ok ()
        headerEval := fun t => .ok t
        doResult := .ok { statusCode := 503, bodyResult := .ok "overloaded" } }).2.1
      "{}" { statusCode := 503, bodyResult := .ok "overloaded" } "overloaded"
      rfl rfl rfl rfl (by decide)
  · exact ((webhook_send_status { endpoint := "https://example.test/hook" }
      { serializeResult := .ok "{}"
        newRequestResult := .ok ()
        headerEval := fun t => .ok t
        doResult := .ok { statusCode := 204, bodyResult := .ok "" } }).1).mpr
      ⟨⟨"{}", rfl⟩, rfl, { statusCode := 204, bodyResult := .ok "" }, rfl, ⟨"", rfl⟩,
        by decide, by decide⟩

end EventExporter
